import Mathlib

/-!
Shallow embedding of `src/fraud_detection_service.py` (SurakshaPay fraud
detection microservice).

Conventions of the embedding:
* Python strings are Lean `String`s; `str.lower()` is `String.toLower`
  (ASCII case folding; every entry of the keyword catalog and every regex
  literal in the source is caseless or already lower-case ASCII, and the
  catalog scripts — Devanagari, Bengali, Tamil, Telugu — are caseless, so
  ASCII folding coincides with Python on the data the service manipulates).
* `datetime.now()` is modelled by a `Clock` carrying `now : Int` (seconds)
  and `hour : Nat` (`now.hour`); a `timedelta` of 1 hour / 24 hours /
  5 minutes is 3600 / 86400 / 300 seconds, and the ISO round-trip
  `fromisoformat(isoformat(t))` is the identity on `Int` timestamps.
  A single request is stamped with one `now` (the source calls
  `datetime.now()` several times within microseconds of each other).
* Python dict fields that may be missing are `Option`s; the `amount` field
  may additionally hold a non-numeric value, for which any comparison such
  as `amount > 50000` raises `TypeError` — modelled by `Except Unit`.
* The per-user history dicts (`dict.get(uid, [])` reads) are total
  functions `String → List _` defaulting to `[]`.
* Methods that mutate `self` return a new `State`; `detect_fraud`, which
  assigns no field of `self`, is translated in state-passing style and
  returns its state component unchanged.
-/

/-- Python truthiness for the `if s:` tests the source applies to string
fields: `None` and the empty string are falsy. -/
def truthyStr : Option String → Option String
  | some s => if s = "" then none else some s
  | none => none

/-- Python `needle in hay` substring containment on character lists. -/
def containsSub : List Char → List Char → Bool
  | n, [] => n.isEmpty
  | n, c :: t => n.isPrefixOf (c :: t) || containsSub n t

/-- Python's `\s` class (ASCII part): space, tab, newline, CR, VT, FF. -/
def isPyWs (c : Char) : Bool :=
  c = ' ' || c = '\t' || c = '\n' || c = '\r' || c.toNat = 11 || c.toNat = 12

/-- Python `str.strip()`: drop whitespace from both ends. -/
def pyStrip (cs : List Char) : List Char :=
  ((cs.dropWhile isPyWs).reverse.dropWhile isPyWs).reverse

/-- Python `str.lower()` for ASCII (kernel-computable; the non-ASCII
text the service handles is caseless, where Python lower is also the
identity). -/
def pyLowerChar (c : Char) : Char :=
  if 'A' ≤ c ∧ c ≤ 'Z' then Char.ofNat (c.toNat + 32) else c

def pyLower (s : String) : String :=
  String.mk (s.toList.map pyLowerChar)

/-- Python list slice `l[-n:]` — the last `n` elements (all of `l` when
`l` is shorter than `n`). -/
def lastN (n : Nat) (l : List α) : List α :=
  l.drop (l.length - n)

/-! ## Pattern catalog (module-level constants of the source) -/

/-- `GAMBLING_KEYWORDS` from the source, verbatim (English, Hindi,
Bengali, Tamil, Telugu; the source lists a few entries twice). -/
def GAMBLING_KEYWORDS : List String := [
  "bet", "gambling", "casino", "poker", "lottery", "jackpot", "wager", "stake",
  "betting", "gamble", "slot", "roulette", "blackjack", "baccarat", "craps",
  "sportsbook", "bookmaker", "odds", "handicap", "spread", "parlay",
  "शर्त", "जुआ", "कैसीनो", "लॉटरी", "जैकपॉट", "सट्टा", "बाजी", "पैसा",
  "रुपया", "टिकट", "नंबर", "गेम", "खेल", "जीत", "हार", "पैसा",
  "বাজি", "জুয়া", "ক্যাসিনো", "লটারি", "জ্যাকপট", "টিকিট", "নম্বর",
  "গেম", "খেলা", "জয়", "হার", "টাকা",
  "பந்தயம்", "சூதாட்டம்", "லாட்டரி", "ஜாக்பாட்", "டிக்கெட்", "எண்",
  "விளையாட்டு", "விளையாடு", "வெற்றி", "தோல்வி", "பணம்",
  "జూదం", "లాటరీ", "కాసినో", "జాక్పాట్", "టికెట్", "సంఖ్య",
  "గేమ్", "ఆడు", "గెలుపు", "ఓటమి", "డబ్బు"]

def MAX_DAILY_TRANSACTIONS : Nat := 10
def MAX_HOURLY_TRANSACTIONS : Nat := 5
def MAX_SINGLE_TRANSACTION : Int := 50000
def SUSPICIOUS_AMOUNT_THRESHOLD : Int := 10000

/-! ## Data model -/

/-- The `amount` value of an inbound JSON payload: missing, a number, or
a non-numeric JSON value (for which Python comparisons raise). -/
inductive AmountField
  | absent
  | num (q : ℚ)
  | malformed
deriving DecidableEq, Repr

/-- The flat request payload of `/detect-fraud`. -/
structure Req where
  user_id : Option String := none
  amount : AmountField := .absent
  description : Option String := none
  recipient_name : Option String := none
  voice_command : Option String := none
deriving DecidableEq, Repr

/-- A stored transaction record: the request dict plus the `timestamp`
key `log_transaction` adds. -/
structure TxRec where
  data : Req
  t : Int
deriving DecidableEq, Repr

/-- A stored voice-command record (`{'command': …, 'timestamp': …}`). -/
structure VoiceRec where
  command : String
  t : Int
deriving DecidableEq, Repr

/-- The mutable state of `FraudDetectionService`. -/
structure State where
  transaction_history : String → List TxRec
  voice_command_history : String → List VoiceRec

def emptyState : State := ⟨fun _ => [], fun _ => []⟩

/-- `datetime.now()`, frozen for the duration of one request. -/
structure Clock where
  now : Int
  hour : Nat
deriving DecidableEq, Repr

/-- The dict returned by `detect_fraud`. -/
structure Verdict where
  is_fraud : Bool
  risk_score : Nat
  fraud_indicators : List String
  confidence : ℚ
  timestamp : Int
deriving DecidableEq, Repr

/-! ## Risk rules -/

/-- The text blob `_check_gambling_keywords` accumulates: each present and
truthy field, lower-cased, followed by one space. -/
def fieldText (o : Option String) : String :=
  match o with
  | some s => if s = "" then "" else pyLower s ++ " "
  | none => ""

/-- `_check_gambling_keywords`: any catalog keyword is a substring of the
blob built from description, voice_command, recipient_name (in that
order). -/
def check_gambling_keywords (r : Req) : Bool :=
  let text_to_check :=
    fieldText r.description ++ fieldText r.voice_command ++ fieldText r.recipient_name
  GAMBLING_KEYWORDS.any fun kw => containsSub (pyLower kw).toList text_to_check.toList

/-- Count of a user's stored transactions with `now - timestamp < window`
(seconds); the windowed-count query of the Activity Ledger. -/
def countTxWithin (s : State) (u : String) (now window : Int) : Nat :=
  ((s.transaction_history u).filter (fun tx => now - tx.t < window)).length

/-- `_check_transaction_patterns`: falsy `user_id` → false; else more than
`MAX_HOURLY_TRANSACTIONS` records in the last hour or more than
`MAX_DAILY_TRANSACTIONS` in the last day. -/
def check_transaction_patterns (s : State) (r : Req) (c : Clock) : Bool :=
  match truthyStr r.user_id with
  | none => false
  | some u =>
    if MAX_HOURLY_TRANSACTIONS < countTxWithin s u c.now 3600 then true
    else if MAX_DAILY_TRANSACTIONS < countTxWithin s u c.now 86400 then true
    else false

/-- Python `int(q)` on a float/int: truncation toward zero. -/
def pyInt (q : ℚ) : Int :=
  if 0 ≤ q.num then ((q.num.natAbs / q.den : Nat) : Int)
  else -((q.num.natAbs / q.den : Nat) : Int)

/-- Decimal digit characters of `n : Nat`, most significant first, with
`natStrChars 0 = ['0']` — the characters of Python `str(n)`. -/
def natDigitsLE : Nat → Nat → List Char
  | 0, _ => []
  | f + 1, n => if n = 0 then [] else Char.ofNat (48 + n % 10) :: natDigitsLE f (n / 10)

def natStrChars (n : Nat) : List Char :=
  if n = 0 then ['0'] else (natDigitsLE n n).reverse

/-- The characters of Python `str(int(amount))`: decimal digits, with a
leading minus sign for negative values (`natStrChars 0 = ['0']`,
matching `str(0)`). -/
def pyIntStr (n : Int) : List Char :=
  if n < 0 then '-' :: natStrChars n.natAbs else natStrChars n.natAbs

/-- `len(set(str(int(amount)))) == 1` from the source. -/
def sameDigitChars (n : Int) : Bool :=
  (pyIntStr n).dedup.length = 1

/-- The three amount tests of `_check_amount_patterns`, for a numeric
amount (Python evaluates them in this order and returns at the first
hit). -/
def amountSuspicious (q : ℚ) : Bool :=
  if MAX_SINGLE_TRANSACTION < q then true
  else if sameDigitChars (pyInt q) then true
  else if SUSPICIOUS_AMOUNT_THRESHOLD < q ∧ q.den = 1 ∧ q.num % 1000 = 0 then true
  else false

/-- `_check_amount_patterns`: `data.get('amount', 0)` defaults a missing
amount to `0`; a non-numeric amount raises `TypeError` at the first
comparison. -/
def check_amount_patterns : AmountField → Except Unit Bool
  | .malformed => .error ()
  | .absent => .ok (amountSuspicious 0)
  | .num q => .ok (amountSuspicious q)

/-- Python `\w` (ASCII part): letters, digits, underscore. -/
def isWordChar (c : Char) : Bool :=
  c.isAlphanum || c = '_'

/-- The maximal runs of word characters of a string (the chunks between
non-word characters; empty chunks are harmless for the length tests
below). -/
def wordRuns (cs : List Char) : List (List Char) :=
  cs.splitOnP (fun c => !(isWordChar c))

/-- `re.search(r'\b\d{4,6}\b', s)`: some maximal word-character run is
all digits with length between `lo` and `hi`. -/
def hasDigitRunBetween (lo hi : Nat) (cs : List Char) : Bool :=
  (wordRuns cs).any fun run =>
    decide (lo ≤ run.length) && decide (run.length ≤ hi) && run.all Char.isDigit

/-- `re.search(r'\b\d{10,}\b', s)`: some maximal word-character run is
all digits with length at least `lo`. -/
def hasDigitRunGe (lo : Nat) (cs : List Char) : Bool :=
  (wordRuns cs).any fun run =>
    decide (lo ≤ run.length) && run.all Char.isDigit

/-- The literal-alternation entries of `SUSPICIOUS_PATTERNS`
(`urgent|…`, `secret|…`, `call me|…`): substring search. -/
def anyLiteralAlt (alts : List String) (cs : List Char) : Bool :=
  alts.any fun w => containsSub w.toList cs

/-- Count of a user's stored voice commands with
`now - timestamp < window`. -/
def countVoiceWithin (s : State) (u : String) (now window : Int) : Nat :=
  ((s.voice_command_history u).filter (fun cmd => now - cmd.t < window)).length

/-- `_check_voice_patterns`: falsy voice command → false; else the five
`SUSPICIOUS_PATTERNS` regexes against the lower-cased command, then (for
a truthy `user_id`) more than 3 voice commands in the last 5 minutes. -/
def check_voice_patterns (s : State) (r : Req) (c : Clock) : Bool :=
  match truthyStr r.voice_command with
  | none => false
  | some vc =>
    let voice_lower := (pyLower vc).toList
    if hasDigitRunBetween 4 6 voice_lower then true
    else if hasDigitRunGe 10 voice_lower then true
    else if anyLiteralAlt ["urgent", "emergency", "quick", "fast", "immediate"] voice_lower then true
    else if anyLiteralAlt ["secret", "confidential", "private"] voice_lower then true
    else if anyLiteralAlt ["call me", "contact me", "message me"] voice_lower then true
    else
      match truthyStr r.user_id with
      | none => false
      | some u => if 3 < countVoiceWithin s u c.now 300 then true else false

/-- `_check_time_patterns`: current hour in [2, 5]. -/
def check_time_patterns (c : Clock) : Bool :=
  2 ≤ c.hour && c.hour ≤ 5

/-! ## Risk aggregator -/

/-- The `fraud_indicators` list `detect_fraud` accumulates, one append
per triggered rule, in source order (`g` gambling, `tp` transaction,
`ap` amount, `vp` voice, `hp` time). -/
def indicatorsOf (g tp ap vp hp : Bool) : List String :=
  (if g then ["gambling_keywords_detected"] else []) ++
  (if tp then ["suspicious_transaction_pattern"] else []) ++
  (if ap then ["suspicious_amount_pattern"] else []) ++
  (if vp then ["suspicious_voice_pattern"] else []) ++
  (if hp then ["suspicious_time_pattern"] else [])

/-- The `risk_score` accumulator of `detect_fraud`: 30 + 25 + 20 + 15 +
10 over the triggered rules. -/
def riskScoreOf (g tp ap vp hp : Bool) : Nat :=
  (if g then 30 else 0) + (if tp then 25 else 0) + (if ap then 20 else 0) +
  (if vp then 15 else 0) + (if hp then 10 else 0)

/-- The dict `detect_fraud` returns, given the five rule outcomes. -/
def verdictOf (g tp ap vp hp : Bool) (c : Clock) : Verdict :=
  { is_fraud := decide (50 ≤ riskScoreOf g tp ap vp hp) ||
      decide (2 ≤ (indicatorsOf g tp ap vp hp).length),
    risk_score := min (riskScoreOf g tp ap vp hp) 100,
    fraud_indicators := indicatorsOf g tp ap vp hp,
    confidence := min ((riskScoreOf g tp ap vp hp : ℚ) / 100) 1,
    timestamp := c.now }

/-- `detect_fraud` (the service method). The five rules run in source
order; a malformed amount raises at the third rule, before a verdict is
assembled. The state component is returned unchanged — the method reads
but never assigns `self`. -/
def detect_fraud (s : State) (r : Req) (c : Clock) :
    Except Unit (Verdict × State) :=
  match check_amount_patterns r.amount with
  | .error e => .error e
  | .ok ap =>
    .ok (verdictOf (check_gambling_keywords r) (check_transaction_patterns s r c) ap
           (check_voice_patterns s r c) (check_time_patterns c) c, s)

/-! ## Activity ledger writes -/

/-- `log_transaction`: append the request stamped `now`, then keep only
the last 100 records when the bound is exceeded (`history[-100:]`). -/
def log_transaction (s : State) (u : String) (d : Req) (t : Int) : State :=
  let l := s.transaction_history u ++ [⟨d, t⟩]
  { s with transaction_history :=
      fun v => if v = u then (if 100 < l.length then lastN 100 l else l)
               else s.transaction_history v }

/-- `log_voice_command`: same pattern, bound 50. -/
def log_voice_command (s : State) (u : String) (cmd : String) (t : Int) : State :=
  let l := s.voice_command_history u ++ [⟨cmd, t⟩]
  { s with voice_command_history :=
      fun v => if v = u then (if 50 < l.length then lastN 50 l else l)
               else s.voice_command_history v }

/-- The `/detect-fraud` route body: for a truthy `user_id` log the
transaction and (when the `voice_command` key is present, truthy or not)
the voice command, then run `detect_fraud` on the updated state. An
exception escapes to the route's handler (HTTP 500); logging has already
happened by then. -/
def route_detect_fraud (s : State) (r : Req) (c : Clock) :
    Except Unit Verdict × State :=
  let s1 := match truthyStr r.user_id with
    | some u =>
      let sa := log_transaction s u r c.now
      match r.voice_command with
      | some vc => log_voice_command sa u vc c.now
      | none => sa
    | none => s
  match detect_fraud s1 r c with
  | .ok (v, s2) => (.ok v, s2)
  | .error e => (.error e, s1)

/-! ## Intent extractor

`extract_voice_intent` matches the command against hand-written regexes
via `re.search`. The regexes use only: literal character sequences, the
classes `\s`, `\d`, `[a-zA-Z\s]` each under a greedy `+` (optionally
capturing), and one greedy optional character (`s?`). `reMatch` below is a
backtracking matcher for exactly this fragment, anchored at the start of
its input; `reSearch` adds `re.search`'s leftmost-position scan. A fuel
argument makes the recursion structural; the fuel chosen in
`searchFuel` is far above the backtracking cost of the pattern/command
sizes at play. -/

/-- The character classes occurring in the source's regexes. -/
inductive Cls
  | ws
  | digit
  | alphaWs
deriving DecidableEq, Repr

def Cls.test : Cls → Char → Bool
  | .ws, c => isPyWs c
  | .digit, c => c.isDigit
  | .alphaWs, c => c.isAlpha || isPyWs c

/-- One regex token: a literal, a greedy optional character, or a greedy
`+`-repetition of a class (capturing group number `cap` when present).
`plusTry` is the internal backtracking state of a `plus` token: the trial
length still to be attempted. -/
inductive Tok
  | lit (cs : List Char)
  | opt (c : Char)
  | plus (cap : Option Nat) (cls : Cls)
  | plusTry (cap : Option Nat) (cls : Cls) (n : Nat)
deriving DecidableEq, Repr

/-- Match a token sequence at the start of `cs` (a trailing unmatched
rest is allowed, as with `re.search`). Returns the captured groups.
Greedy semantics: a `plus` first tries the maximal run of its class and
gives characters back one at a time; `opt` first tries to consume its
character. Fuel decreases on every recursive call. -/
def reMatch : Nat → List Tok → List Char → Option (List (Nat × List Char))
  | _, [], _ => some []
  | 0, _ :: _, _ => none
  | f + 1, Tok.lit l :: ts, cs =>
    if l.isPrefixOf cs then reMatch f ts (cs.drop l.length) else none
  | f + 1, Tok.opt c :: ts, cs =>
    match cs with
    | [] => reMatch f ts []
    | c2 :: rest =>
      if c2 = c then
        match reMatch f ts rest with
        | some g => some g
        | none => reMatch f ts (c2 :: rest)
      else reMatch f ts (c2 :: rest)
  | f + 1, Tok.plus cap cl :: ts, cs =>
    reMatch f (Tok.plusTry cap cl (cs.takeWhile cl.test).length :: ts) cs
  | _ + 1, Tok.plusTry _ _ 0 :: _, _ => none
  | f + 1, Tok.plusTry cap cl (n + 1) :: ts, cs =>
    match reMatch f ts (cs.drop (n + 1)) with
    | some g =>
      some ((match cap with | some i => [(i, cs.take (n + 1))] | none => []) ++ g)
    | none => reMatch f (Tok.plusTry cap cl n :: ts) cs

/-- `re.search`: try a match at every start position, leftmost first. -/
def reSearch (fuel : Nat) (ts : List Tok) : List Char → Option (List (Nat × List Char))
  | [] => reMatch fuel ts []
  | c :: cs =>
    match reMatch fuel ts (c :: cs) with
    | some g => some g
    | none => reSearch fuel ts cs

/-- Fuel bound for one anchored match attempt; cubic in the command
length, far above the worst-case backtracking of the source's patterns
on the commands considered. -/
def searchFuel (cs : List Char) : Nat := (cs.length + 4) ^ 3

def wsP : Tok := Tok.plus none Cls.ws
def capD (n : Nat) : Tok := Tok.plus (some n) Cls.digit
def capA (n : Nat) : Tok := Tok.plus (some n) Cls.alphaWs
def litT (s : String) : Tok := Tok.lit s.toList

/-- `send_patterns` from the source: each entry keeps the regex source
text (used by the `'ko' in pattern` test) next to its token form. -/
def send_patterns : List (String × List Tok) := [
  ("send\\s+(\\d+)\\s+to\\s+([a-zA-Z\\s]+)",
    [litT "send", wsP, capD 1, wsP, litT "to", wsP, capA 2]),
  ("(\\d+)\\s+rupees?\\s+to\\s+([a-zA-Z\\s]+)",
    [capD 1, wsP, litT "rupee", Tok.opt 's', wsP, litT "to", wsP, capA 2]),
  ("([a-zA-Z\\s]+)\\s+ko\\s+(\\d+)\\s+bhej",
    [capA 1, wsP, litT "ko", wsP, capD 2, wsP, litT "bhej"]),
  ("([a-zA-Z\\s]+)\\s+को\\s+(\\d+)\\s+भेज",
    [capA 1, wsP, litT "को", wsP, capD 2, wsP, litT "भेज"])]

def receive_patterns : List (List Tok) := [
  [litT "receive", wsP, litT "money"],
  [litT "show", wsP, litT "qr"],
  [litT "qr", wsP, litT "code"],
  [litT "पैसा", wsP, litT "ले"],
  [litT "क्यूआर", wsP, litT "दिखा"]]

def balance_patterns : List (List Tok) := [
  [litT "balance"],
  [litT "how", wsP, litT "much"],
  [litT "कितना", wsP, litT "पैसा"],
  [litT "बैलेंस"],
  [litT "बाकी"]]

def history_patterns : List (List Tok) := [
  [litT "history"],
  [litT "transactions"],
  [litT "list"],
  [litT "इतिहास"],
  [litT "लिस्ट"]]

def help_patterns : List (List Tok) := [
  [litT "help"],
  [litT "what", wsP, litT "can", wsP, litT "you", wsP, litT "do"],
  [litT "मदद"],
  [litT "क्या", wsP, litT "कर", wsP, litT "सकते", wsP, litT "हो"]]

/-- The structured intent dict. Field presence mirrors the dicts the
source builds (`amount`/`recipient` only for send-money,
`original_command` only for the unknown fallback). -/
structure Intent where
  intent : String
  confidence : ℚ
  amount : Option Nat := none
  recipient : Option String := none
  original_command : Option String := none
deriving DecidableEq, Repr

/-- `'ko' in pattern or 'को' in pattern` — selects the Hindi
name-first group order. -/
def isHindiPattern (src : String) : Bool :=
  containsSub "ko".toList src.toList || containsSub "को".toList src.toList

/-- Captured group lookup (`match.group(n)`). -/
def grp (g : List (Nat × List Char)) (n : Nat) : List Char :=
  match g.find? (fun p => p.1 = n) with
  | some p => p.2
  | none => []

/-- `float(digits)` of a `\d+` capture — an exact natural number. -/
def digitsToNat (cs : List Char) : Nat :=
  cs.foldl (fun a c => 10 * a + (c.toNat - 48)) 0

/-- Build the send-money dict of the source: the Hindi patterns put the
recipient in group 1 and the amount in group 2, the others the
opposite. -/
def mkSendIntent (hindi : Bool) (g : List (Nat × List Char)) : Intent :=
  if hindi then
    { intent := "send_money",
      recipient := some (String.mk (pyStrip (grp g 1))),
      amount := some (digitsToNat (grp g 2)),
      confidence := 9 / 10 }
  else
    { intent := "send_money",
      amount := some (digitsToNat (grp g 1)),
      recipient := some (String.mk (pyStrip (grp g 2))),
      confidence := 9 / 10 }

/-- The `for pattern in send_patterns` loop, returning at the first
matching pattern. -/
def trySendPatterns : List (String × List Tok) → List Char → Option Intent
  | [], _ => none
  | (src, toks) :: ps, cs =>
    match reSearch (searchFuel cs) toks cs with
    | some g => some (mkSendIntent (isHindiPattern src) g)
    | none => trySendPatterns ps cs

/-- A `for pattern in …: if re.search(pattern, command)` loop without
captures. -/
def anyPatMatch (pats : List (List Tok)) (cs : List Char) : Bool :=
  pats.any fun p => (reSearch (searchFuel cs) p cs).isSome

/-- `extract_voice_intent`: the five pattern groups in source order,
first match wins; no match falls through to the unknown intent echoing
the command. -/
def extract_voice_intent (command : String) : Intent :=
  let cs := command.toList
  match trySendPatterns send_patterns cs with
  | some r => r
  | none =>
    if anyPatMatch receive_patterns cs then
      { intent := "receive_money", confidence := 4 / 5 }
    else if anyPatMatch balance_patterns cs then
      { intent := "check_balance", confidence := 4 / 5 }
    else if anyPatMatch history_patterns cs then
      { intent := "view_history", confidence := 4 / 5 }
    else if anyPatMatch help_patterns cs then
      { intent := "help", confidence := 4 / 5 }
    else
      { intent := "unknown", confidence := 1 / 10, original_command := some command }

/-! ## Ledger operation sequences (for the reachability invariant)

A reachable ledger state is the result of running a sequence of
`log_transaction` / `log_voice_command` calls from the fresh service
state; each call is stamped with the `datetime.now()` of its moment, so
along a run the stamps are non-decreasing. -/

inductive Op
  | tx (uid : String) (d : Req) (t : Int)
  | voice (uid : String) (cmd : String) (t : Int)
deriving DecidableEq, Repr

/-- The `now()` stamp of an operation. -/
def Op.time : Op → Int
  | .tx _ _ t => t
  | .voice _ _ t => t

def applyOp (s : State) : Op → State
  | .tx u d t => log_transaction s u d t
  | .voice u cmd t => log_voice_command s u cmd t

/-- Run a call sequence from the fresh service state. -/
def runOps (ops : List Op) : State := ops.foldl applyOp emptyState

/-- All transaction records ever appended for `u` by `ops`, in order —
the unbounded history the bounded ledger is a suffix of. -/
def fullTx (u : String) (ops : List Op) : List TxRec :=
  ops.filterMap fun op =>
    match op with
    | .tx u2 d t => if u2 = u then some ⟨d, t⟩ else none
    | .voice _ _ _ => none

/-- All voice records ever appended for `u` by `ops`, in order. -/
def fullVoice (u : String) (ops : List Op) : List VoiceRec :=
  ops.filterMap fun op =>
    match op with
    | .voice u2 cmd t => if u2 = u then some ⟨cmd, t⟩ else none
    | .tx _ _ _ => none

/-! ## Predicates written from the claims (for comparison with the code) -/

/-- Claim C1's amount-pattern rule, as worded: `amount > 50000`; or all
digits of the integer part identical AND more than one digit; or
`amount > 10000` and an exact multiple of 1000. Stated as a flat
disjunction over the character string of the integer part. -/
def amountRuleClaimC1 (q : ℚ) : Bool :=
  decide ((MAX_SINGLE_TRANSACTION : ℚ) < q) ||
  (((pyIntStr (pyInt q)).all fun c => (pyIntStr (pyInt q)).all fun d => decide (c = d)) &&
     decide (2 ≤ (pyIntStr (pyInt q)).length)) ||
  decide (((SUSPICIOUS_AMOUNT_THRESHOLD : ℚ) < q) ∧ q.den = 1 ∧ q.num % 1000 = 0)

/-- C1 as the code forces it to be amended: the more-than-one-digit
proviso dropped, so the all-identical-digits test also fires on a
single-character integer part (every amount below 10 truncates to one
digit, and a missing amount defaults to `0`). -/
def amountRuleAmendedC1 (q : ℚ) : Bool :=
  decide ((MAX_SINGLE_TRANSACTION : ℚ) < q) ||
  ((pyIntStr (pyInt q)).all fun c => (pyIntStr (pyInt q)).all fun d => decide (c = d)) ||
  decide (((SUSPICIOUS_AMOUNT_THRESHOLD : ℚ) < q) ∧ q.den = 1 ∧ q.num % 1000 = 0)

/-! ## Concrete scenario inputs used by witnesses -/

/-- A request with an absent amount and no other fields. -/
def reqEmpty : Req := {}

/-- A request whose amount field holds a non-numeric value. -/
def reqMalformed : Req := { amount := .malformed }

/-- Five transactions already on the ledger for user `u`, all at time 0. -/
def fiveTxState : State :=
  { transaction_history := fun v => if v = "u" then List.replicate 5 ⟨reqEmpty, 0⟩ else [],
    voice_command_history := fun _ => [] }

def reqU : Req := { user_id := some "u", amount := .num 500 }

def clock10 : Clock := { now := 10, hour := 10 }

def clockH3 : Clock := { now := 0, hour := 3 }

/-- Fallback verdict for total projections in witness statements. -/
def verdictFallback : Verdict :=
  { is_fraud := false, risk_score := 0, fraud_indicators := [], confidence := 0, timestamp := 0 }

/-- The verdict of the C5 witness scenario (6th transaction of user `u`
within the hour), extracted from the route's return value. -/
def c5Verdict : Verdict :=
  match (route_detect_fraud fiveTxState reqU clock10).1 with
  | .ok v => v
  | .error _ => verdictFallback

def c5State : State := (route_detect_fraud fiveTxState reqU clock10).2

/-- The verdict of running detection on the empty request at hour 3. -/
def c8Verdict : Verdict :=
  match detect_fraud emptyState reqEmpty clockH3 with
  | .ok (v, _) => v
  | .error _ => verdictFallback

/-- The verdict of running detection on the empty request at hour 10. -/
def c10Verdict : Verdict :=
  match detect_fraud emptyState reqEmpty clock10 with
  | .ok (v, _) => v
  | .error _ => verdictFallback

/-- The fixed weight each indicator contributes to the risk score. -/
def weightOf : String → Nat
  | "gambling_keywords_detected" => 30
  | "suspicious_transaction_pattern" => 25
  | "suspicious_amount_pattern" => 20
  | "suspicious_voice_pattern" => 15
  | "suspicious_time_pattern" => 10
  | _ => 0

/-- A request triggering exactly the amount (20) and voice (15) rules. -/
def c4Req : Req := { amount := .num 11111, voice_command := some "urgent" }

/-- Verdict of the C4 witness scenario (score 35, two indicators). -/
def c4Verdict : Verdict :=
  match detect_fraud emptyState c4Req clock10 with
  | .ok (v, _) => v
  | .error _ => verdictFallback

/-- Three ledger operations with non-decreasing stamps. -/
def c6Ops : List Op :=
  [Op.tx "u" reqEmpty 1, Op.tx "u" reqEmpty 2, Op.voice "u" "hi" 3]

/-! ## Helper lemmas -/

lemma natStrChars_ne_nil (n : Nat) : natStrChars n ≠ [] := by
  unfold natStrChars
  cases n with
  | zero => simp
  | succ m => simp [natDigitsLE]

lemma pyIntStr_ne_nil (n : Int) : pyIntStr n ≠ [] := by
  unfold pyIntStr
  split
  · simp
  · exact natStrChars_ne_nil _

lemma dedup_length_one_of_forall_eq {α : Type} [DecidableEq α] (a : α) :
    ∀ l : List α, (∀ b ∈ l, b = a) → l ≠ [] → l.dedup.length = 1 := by
  intro l
  induction l with
  | nil => intro _ h; exact absurd rfl h
  | cons x t ih =>
    intro h _
    have hx : x = a := h x (List.mem_cons_self x t)
    cases t with
    | nil => simp
    | cons y t2 =>
      have hy : y = a := h y (by simp)
      have hmem : x ∈ y :: t2 := by
        rw [hx, ← hy]; exact List.mem_cons_self y t2
      rw [List.dedup_cons_of_mem hmem]
      exact ih (fun b hb => h b (List.mem_cons_of_mem x hb)) (by simp)

lemma dedup_length_one_iff {α : Type} [DecidableEq α] {l : List α} (hne : l ≠ []) :
    l.dedup.length = 1 ↔ ∀ b ∈ l, ∀ c ∈ l, b = c := by
  constructor
  · intro h b hb c hc
    obtain ⟨a, ha⟩ := List.length_eq_one.mp h
    have hb2 : b ∈ l.dedup := List.mem_dedup.mpr hb
    have hc2 : c ∈ l.dedup := List.mem_dedup.mpr hc
    rw [ha, List.mem_singleton] at hb2 hc2
    rw [hb2, hc2]
  · intro h
    obtain ⟨x, t, rfl⟩ := List.exists_cons_of_ne_nil hne
    exact dedup_length_one_of_forall_eq x _
      (fun b hb => h b hb x (List.mem_cons_self x t)) hne

lemma sameDigitChars_eq_pairwise (n : Int) :
    sameDigitChars n =
      ((pyIntStr n).all fun c => (pyIntStr n).all fun d => decide (c = d)) := by
  have hne := pyIntStr_ne_nil n
  unfold sameDigitChars
  rw [Bool.eq_iff_iff]
  simp only [decide_eq_true_eq, List.all_eq_true, decide_eq_true_eq]
  exact dedup_length_one_iff hne

lemma lastN_eq_reverse_take (n : Nat) (l : List α) :
    lastN n l = (l.reverse.take n).reverse := by
  have h := List.rtake_eq_reverse_take_reverse (l := l) (n := n)
  unfold List.rtake at h
  exact h

lemma lastN_append_lastN (n : Nat) (l m : List α) :
    lastN n (lastN n l ++ m) = lastN n (l ++ m) := by
  rw [lastN_eq_reverse_take n l, lastN_eq_reverse_take, lastN_eq_reverse_take]
  rw [List.reverse_append, List.reverse_reverse, List.reverse_append]
  congr 1
  rw [List.take_append_eq_append_take, List.take_append_eq_append_take, List.take_take]
  congr 1
  rw [inf_eq_left.mpr (Nat.sub_le _ _)]

lemma lastN_length_le (n : Nat) (l : List α) : (lastN n l).length ≤ n := by
  unfold lastN
  rw [List.length_drop]
  omega

lemma lastN_sublist (n : Nat) (l : List α) : (lastN n l).Sublist l :=
  List.drop_sublist _ _

lemma lastN_of_le {n : Nat} {l : List α} (h : l.length ≤ n) : lastN n l = l := by
  unfold lastN
  rw [Nat.sub_eq_zero_of_le h, List.drop_zero]

lemma log_transaction_self (s : State) (u : String) (d : Req) (t : Int) :
    (log_transaction s u d t).transaction_history u =
      lastN 100 (s.transaction_history u ++ [⟨d, t⟩]) := by
  have hstep : (log_transaction s u d t).transaction_history u =
      (if 100 < (s.transaction_history u ++ [({ data := d, t := t } : TxRec)]).length then
        lastN 100 (s.transaction_history u ++ [({ data := d, t := t } : TxRec)])
      else s.transaction_history u ++ [({ data := d, t := t } : TxRec)]) := by
    simp [log_transaction]
  rw [hstep]
  by_cases h : 100 < (s.transaction_history u ++ [({ data := d, t := t } : TxRec)]).length
  · rw [if_pos h]
  · rw [if_neg h]
    exact (lastN_of_le (Nat.le_of_not_lt h)).symm

lemma log_voice_command_self (s : State) (u : String) (cmd : String) (t : Int) :
    (log_voice_command s u cmd t).voice_command_history u =
      lastN 50 (s.voice_command_history u ++ [⟨cmd, t⟩]) := by
  have hstep : (log_voice_command s u cmd t).voice_command_history u =
      (if 50 < (s.voice_command_history u ++ [({ command := cmd, t := t } : VoiceRec)]).length then
        lastN 50 (s.voice_command_history u ++ [({ command := cmd, t := t } : VoiceRec)])
      else s.voice_command_history u ++ [({ command := cmd, t := t } : VoiceRec)]) := by
    simp [log_voice_command]
  rw [hstep]
  by_cases h : 50 < (s.voice_command_history u ++ [({ command := cmd, t := t } : VoiceRec)]).length
  · rw [if_pos h]
  · rw [if_neg h]
    exact (lastN_of_le (Nat.le_of_not_lt h)).symm

lemma log_transaction_other (s : State) (u : String) (d : Req) (t : Int)
    (u2 : String) (h : u2 ≠ u) :
    (log_transaction s u d t).transaction_history u2 = s.transaction_history u2 := by
  unfold log_transaction
  simp [h]

lemma log_transaction_voice (s : State) (u : String) (d : Req) (t : Int) :
    (log_transaction s u d t).voice_command_history = s.voice_command_history := rfl

lemma log_voice_command_other (s : State) (u : String) (cmd : String) (t : Int)
    (u2 : String) (h : u2 ≠ u) :
    (log_voice_command s u cmd t).voice_command_history u2 = s.voice_command_history u2 := by
  unfold log_voice_command
  simp [h]

lemma log_voice_command_tx (s : State) (u : String) (cmd : String) (t : Int) :
    (log_voice_command s u cmd t).transaction_history = s.transaction_history := rfl

lemma detect_fraud_ok_shape {s : State} {r : Req} {c : Clock} {v : Verdict} {st : State}
    (h : detect_fraud s r c = Except.ok (v, st)) :
    ∃ ap, check_amount_patterns r.amount = Except.ok ap ∧ st = s ∧
      v = verdictOf (check_gambling_keywords r) (check_transaction_patterns s r c) ap
            (check_voice_patterns s r c) (check_time_patterns c) c := by
  unfold detect_fraud at h
  cases ha : check_amount_patterns r.amount with
  | error e => rw [ha] at h; exact absurd h (by simp)
  | ok ap =>
    rw [ha] at h
    simp only [Except.ok.injEq, Prod.mk.injEq] at h
    exact ⟨ap, rfl, h.2.symm, h.1.symm⟩

lemma mem_indicatorsOf (g tp ap vp hp : Bool) :
    (("gambling_keywords_detected" ∈ indicatorsOf g tp ap vp hp) ↔ g = true) ∧
    (("suspicious_transaction_pattern" ∈ indicatorsOf g tp ap vp hp) ↔ tp = true) ∧
    (("suspicious_amount_pattern" ∈ indicatorsOf g tp ap vp hp) ↔ ap = true) ∧
    (("suspicious_voice_pattern" ∈ indicatorsOf g tp ap vp hp) ↔ vp = true) ∧
    (("suspicious_time_pattern" ∈ indicatorsOf g tp ap vp hp) ↔ hp = true) := by
  cases g <;> cases tp <;> cases ap <;> cases vp <;> cases hp <;>
    refine ⟨?_, ?_, ?_, ?_, ?_⟩ <;> decide

lemma weights_sum (g tp ap vp hp : Bool) :
    ((indicatorsOf g tp ap vp hp).map weightOf).sum = riskScoreOf g tp ap vp hp := by
  cases g <;> cases tp <;> cases ap <;> cases vp <;> cases hp <;> rfl

/-! ## Claims -/

/-- C1 (counterexample): the claim's amount-pattern rule is false at
`amount = 7` — a one-digit integer part, which the claim's
more-than-one-digit proviso excludes — yet the code's rule returns true
(`str(int(7))` is `"7"`, whose character set has size 1). -/
theorem amount_rule_c1_counterexample :
    check_amount_patterns (.num 7) = .ok true ∧ amountRuleClaimC1 7 = false :=
  ⟨rfl, rfl⟩

/-- C1 (amended): the amount-pattern rule is true iff `amount > 50000`,
or all characters of `str(int(amount))` are identical — with no
more-than-one-digit requirement, so every amount whose integer part is a
single digit (including a missing amount, which defaults to 0) fires the
rule — or `amount > 10000` and `amount` is an exact multiple of 1000.
`11111` and `15000` trigger it, `12345` does not. -/
theorem amount_rule_c1_amended :
    (∀ q : ℚ, check_amount_patterns (.num q) = .ok (amountRuleAmendedC1 q)) ∧
    check_amount_patterns .absent = .ok true ∧
    (amountRuleAmendedC1 11111 = true ∧ amountRuleAmendedC1 15000 = true ∧
      amountRuleAmendedC1 12345 = false) ∧
    (check_amount_patterns (.num 11111) = .ok true ∧
      check_amount_patterns (.num 15000) = .ok true ∧
      check_amount_patterns (.num 12345) = .ok false) := by
  refine ⟨fun q => ?_, rfl, ⟨rfl, rfl, rfl⟩, rfl, rfl, rfl⟩
  show Except.ok (amountSuspicious q) = Except.ok (amountRuleAmendedC1 q)
  congr 1
  unfold amountSuspicious amountRuleAmendedC1
  rw [sameDigitChars_eq_pairwise]
  by_cases h1 : ((MAX_SINGLE_TRANSACTION : ℚ) < q) <;>
    by_cases h3 : (((SUSPICIOUS_AMOUNT_THRESHOLD : ℚ) < q) ∧ q.den = 1 ∧ q.num % 1000 = 0) <;>
      cases h2 : ((pyIntStr (pyInt q)).all fun c => (pyIntStr (pyInt q)).all fun d =>
        decide (c = d)) <;>
        simp [h1, h2, h3]

/-- C2 (counterexample): on a request with no amount field the assessment
completes but the amount-pattern indicator IS raised (the default 0 has
the all-identical-digits property), and on a non-numeric amount the
assessment raises instead of completing. -/
theorem missing_amount_c2_counterexample :
    ("suspicious_amount_pattern" ∈ c10Verdict.fraud_indicators) ∧
    detect_fraud emptyState reqMalformed clock10 = Except.error () :=
  ⟨by decide, rfl⟩

/-- C2 (amended): a missing amount field does not abort the assessment,
but the amount-pattern rule TRIGGERS on it (weight 20 added), because
`data.get('amount', 0)` defaults to 0 and `str(0)` is a single repeated
character; a non-numeric amount makes the assessment raise (`TypeError`
on the first comparison), i.e. the fraud check aborts and the HTTP layer
reports an internal error. -/
theorem missing_amount_c2_amended :
    (∀ (s : State) (r : Req) (c : Clock), r.amount = .absent →
      ∃ v st, detect_fraud s r c = Except.ok (v, st) ∧
        "suspicious_amount_pattern" ∈ v.fraud_indicators) ∧
    (∀ (s : State) (r : Req) (c : Clock), r.amount = .malformed →
      detect_fraud s r c = Except.error ()) := by
  constructor
  · intro s r c ha
    have hca : check_amount_patterns r.amount = Except.ok true := by
      rw [ha]; rfl
    refine ⟨verdictOf (check_gambling_keywords r) (check_transaction_patterns s r c) true
      (check_voice_patterns s r c) (check_time_patterns c) c, s, ?_, ?_⟩
    · unfold detect_fraud
      rw [hca]
    · exact ((mem_indicatorsOf _ _ _ _ _).2.2.1).mpr rfl
  · intro s r c ha
    have hca : check_amount_patterns r.amount = Except.error () := by
      rw [ha]; rfl
    unfold detect_fraud
    rw [hca]

theorem missing_amount_c2_witness :
    reqEmpty.amount = AmountField.absent ∧
    (∃ v st, detect_fraud emptyState reqEmpty clock10 = Except.ok (v, st) ∧
      "suspicious_amount_pattern" ∈ v.fraud_indicators) ∧
    reqMalformed.amount = AmountField.malformed ∧
    detect_fraud emptyState reqMalformed clock10 = Except.error () :=
  ⟨rfl, missing_amount_c2_amended.1 emptyState reqEmpty clock10 rfl, rfl,
    missing_amount_c2_amended.2 emptyState reqMalformed clock10 rfl⟩

/-- C3: whenever the assessment returns a verdict, its risk score is
`min` of the summed weights of the raised indicators and 100, and lies
in [0, 100]. -/
theorem risk_score_c3 (s : State) (r : Req) (c : Clock) (v : Verdict) (st : State)
    (h : detect_fraud s r c = Except.ok (v, st)) :
    v.risk_score = min ((v.fraud_indicators.map weightOf).sum) 100 ∧
      v.risk_score ≤ 100 := by
  obtain ⟨ap, hca, hst, hv⟩ := detect_fraud_ok_shape h
  subst hv
  constructor
  · simp only [verdictOf, weights_sum]
  · simp only [verdictOf]
    exact Nat.min_le_right _ _

theorem risk_score_c3_witness :
    c10Verdict.risk_score = min ((c10Verdict.fraud_indicators.map weightOf).sum) 100 ∧
      c10Verdict.risk_score ≤ 100 :=
  risk_score_c3 emptyState reqEmpty clock10 c10Verdict emptyState rfl

/-- C4: whenever the assessment returns a verdict, `is_fraud` holds iff
the risk score is at least 50 or at least two indicators are raised. -/
theorem is_fraud_c4 (s : State) (r : Req) (c : Clock) (v : Verdict) (st : State)
    (h : detect_fraud s r c = Except.ok (v, st)) :
    v.is_fraud = true ↔ (50 ≤ v.risk_score ∨ 2 ≤ v.fraud_indicators.length) := by
  obtain ⟨ap, hca, hst, hv⟩ := detect_fraud_ok_shape h
  subst hv
  cases check_gambling_keywords r <;> cases check_transaction_patterns s r c <;>
    cases ap <;> cases check_voice_patterns s r c <;> cases check_time_patterns c <;>
      simp [verdictOf, riskScoreOf, indicatorsOf]

theorem is_fraud_c4_witness :
    (c4Verdict.is_fraud = true ↔
      (50 ≤ c4Verdict.risk_score ∨ 2 ≤ c4Verdict.fraud_indicators.length)) ∧
    c4Verdict.risk_score = 35 ∧ c4Verdict.fraud_indicators.length = 2 ∧
    c4Verdict.is_fraud = true :=
  ⟨is_fraud_c4 emptyState c4Req clock10 c4Verdict emptyState rfl,
    by decide, by decide, by decide⟩

lemma check_transaction_patterns_iff {s : State} {r : Req} {c : Clock} {u : String}
    (htr : truthyStr r.user_id = some u) :
    (check_transaction_patterns s r c = true ↔
      (MAX_HOURLY_TRANSACTIONS < countTxWithin s u c.now 3600 ∨
       MAX_DAILY_TRANSACTIONS < countTxWithin s u c.now 86400)) := by
  unfold check_transaction_patterns
  rw [htr]
  by_cases h1 : MAX_HOURLY_TRANSACTIONS < countTxWithin s u c.now 3600 <;>
    by_cases h2 : MAX_DAILY_TRANSACTIONS < countTxWithin s u c.now 86400 <;>
      simp [h1, h2]

lemma route_state_tx {s : State} {r : Req} {c : Clock} {u : String}
    (hu : r.user_id = some u) (hu2 : u ≠ "") :
    ∃ s1, route_detect_fraud s r c =
        (match detect_fraud s1 r c with
         | .ok (v, s2) => (Except.ok v, s2)
         | .error e => (Except.error e, s1)) ∧
      s1.transaction_history = (log_transaction s u r c.now).transaction_history := by
  unfold route_detect_fraud
  rw [hu]
  simp only [truthyStr]
  rw [if_neg hu2]
  cases hvc : r.voice_command with
  | none => exact ⟨log_transaction s u r c.now, rfl, rfl⟩
  | some vc =>
    exact ⟨log_voice_command (log_transaction s u r c.now) u vc c.now, rfl,
      log_voice_command_tx _ _ _ _⟩

/-- C5: for a request carrying a (truthy) `user_id`, the route logs the
request first and the transaction-rate indicator is raised iff the
post-append ledger holds more than 5 of that user's transactions within
the last hour or more than 10 within the last day; the post-append
ledger is the old one with the current record appended (evicting beyond
100), so both counts include the current record. -/
theorem transaction_rate_rule_c5 (s : State) (r : Req) (c : Clock) (u : String)
    (v : Verdict) (st : State)
    (hu : r.user_id = some u) (hu2 : u ≠ "")
    (hok : route_detect_fraud s r c = (Except.ok v, st)) :
    ("suspicious_transaction_pattern" ∈ v.fraud_indicators ↔
      (MAX_HOURLY_TRANSACTIONS < countTxWithin st u c.now 3600 ∨
       MAX_DAILY_TRANSACTIONS < countTxWithin st u c.now 86400)) ∧
    st.transaction_history u =
      lastN 100 (s.transaction_history u ++ [({ data := r, t := c.now } : TxRec)]) := by
  have htr : truthyStr r.user_id = some u := by
    rw [hu]; simp [truthyStr, hu2]
  obtain ⟨s1, hroute, hs1⟩ := route_state_tx (s := s) (c := c) hu hu2
  rw [hroute] at hok
  cases hd : detect_fraud s1 r c with
  | error e => rw [hd] at hok; simp at hok
  | ok p =>
    obtain ⟨v2, s2⟩ := p
    rw [hd] at hok
    simp only [Prod.mk.injEq, Except.ok.injEq] at hok
    obtain ⟨hv2, hs2⟩ := hok
    obtain ⟨ap, hca, hs2s, hvshape⟩ := detect_fraud_ok_shape hd
    have hst1 : st = s1 := by rw [← hs2, hs2s]
    have hv : v = verdictOf (check_gambling_keywords r) (check_transaction_patterns s1 r c)
        ap (check_voice_patterns s1 r c) (check_time_patterns c) c := by
      rw [← hv2, hvshape]
    subst hst1
    rw [hv]
    constructor
    · exact Iff.trans ((mem_indicatorsOf _ _ _ _ _).2.1) (check_transaction_patterns_iff htr)
    · rw [congrFun hs1 u, log_transaction_self]

theorem transaction_rate_rule_c5_witness :
    reqU.user_id = some "u" ∧
    ("suspicious_transaction_pattern" ∈ c5Verdict.fraud_indicators ↔
      (MAX_HOURLY_TRANSACTIONS < countTxWithin c5State "u" clock10.now 3600 ∨
       MAX_DAILY_TRANSACTIONS < countTxWithin c5State "u" clock10.now 86400)) ∧
    ("suspicious_transaction_pattern" ∈ c5Verdict.fraud_indicators) ∧
    countTxWithin c5State "u" clock10.now 3600 = 6 :=
  ⟨rfl,
   (transaction_rate_rule_c5 fiveTxState reqU clock10 "u" c5Verdict c5State rfl
     (by decide) rfl).1,
   by decide, by decide⟩

/-- C8: whenever the assessment returns a verdict, the unusual-hour
indicator is raised iff the clock hour is in [2, 5], independently of
the request and the ledger; equivalently the time rule itself is true
iff the hour is in [2, 5]. -/
theorem unusual_hour_rule_c8 (s : State) (r : Req) (c : Clock) (v : Verdict) (st : State)
    (h : detect_fraud s r c = Except.ok (v, st)) :
    ("suspicious_time_pattern" ∈ v.fraud_indicators ↔ (2 ≤ c.hour ∧ c.hour ≤ 5)) ∧
    (check_time_patterns c = true ↔ (2 ≤ c.hour ∧ c.hour ≤ 5)) := by
  have hct : check_time_patterns c = true ↔ (2 ≤ c.hour ∧ c.hour ≤ 5) := by
    unfold check_time_patterns
    simp [Bool.and_eq_true]
  obtain ⟨ap, hca, hst, hv⟩ := detect_fraud_ok_shape h
  subst hv
  exact ⟨Iff.trans ((mem_indicatorsOf _ _ _ _ _).2.2.2.2) hct, hct⟩

theorem unusual_hour_rule_c8_witness :
    ("suspicious_time_pattern" ∈ c8Verdict.fraud_indicators ↔
      (2 ≤ clockH3.hour ∧ clockH3.hour ≤ 5)) ∧
    ("suspicious_time_pattern" ∈ c8Verdict.fraud_indicators) :=
  ⟨(unusual_hour_rule_c8 emptyState reqEmpty clockH3 c8Verdict emptyState rfl).1, by decide⟩

/-- C9: evaluating the assessment twice on the same request, ledger
state and clock — the first call returning its state untouched, the
second running on that returned state — raises the gambling-keyword and
amount-pattern indicators identically in both verdicts. -/
theorem idempotence_c9 (s : State) (r : Req) (c : Clock) (v1 v2 : Verdict) (s1 s2 : State)
    (h1 : detect_fraud s r c = Except.ok (v1, s1))
    (h2 : detect_fraud s1 r c = Except.ok (v2, s2)) :
    (("gambling_keywords_detected" ∈ v1.fraud_indicators) ↔
      ("gambling_keywords_detected" ∈ v2.fraud_indicators)) ∧
    (("suspicious_amount_pattern" ∈ v1.fraud_indicators) ↔
      ("suspicious_amount_pattern" ∈ v2.fraud_indicators)) := by
  obtain ⟨ap1, hca1, hs1, hv1⟩ := detect_fraud_ok_shape h1
  subst hs1
  rw [h1] at h2
  simp only [Except.ok.injEq, Prod.mk.injEq] at h2
  rw [h2.1]
  exact ⟨Iff.rfl, Iff.rfl⟩

theorem idempotence_c9_witness :
    (("gambling_keywords_detected" ∈ c10Verdict.fraud_indicators) ↔
      ("gambling_keywords_detected" ∈ c10Verdict.fraud_indicators)) ∧
    (("suspicious_amount_pattern" ∈ c10Verdict.fraud_indicators) ↔
      ("suspicious_amount_pattern" ∈ c10Verdict.fraud_indicators)) :=
  idempotence_c9 emptyState reqEmpty clock10 c10Verdict c10Verdict emptyState emptyState
    rfl rfl

/-- C10: the assessment itself never mutates the ledger (the state it
returns is its input state), and each logging operation mutates only the
entry of the `user_id` it is given, leaving every other identity's entry
and the other history kind unchanged. -/
theorem frame_effect_c10 :
    (∀ (s : State) (u : String) (d : Req) (t : Int) (u2 : String), u2 ≠ u →
      (log_transaction s u d t).transaction_history u2 = s.transaction_history u2) ∧
    (∀ (s : State) (u : String) (d : Req) (t : Int),
      (log_transaction s u d t).voice_command_history = s.voice_command_history) ∧
    (∀ (s : State) (u : String) (cmd : String) (t : Int) (u2 : String), u2 ≠ u →
      (log_voice_command s u cmd t).voice_command_history u2 = s.voice_command_history u2) ∧
    (∀ (s : State) (u : String) (cmd : String) (t : Int),
      (log_voice_command s u cmd t).transaction_history = s.transaction_history) ∧
    (∀ (s : State) (r : Req) (c : Clock) (v : Verdict) (st : State),
      detect_fraud s r c = Except.ok (v, st) → st = s) :=
  ⟨log_transaction_other, log_transaction_voice, log_voice_command_other,
    log_voice_command_tx, fun s r c v st h => by
      obtain ⟨ap, _, hst, _⟩ := detect_fraud_ok_shape h
      exact hst⟩

theorem frame_effect_c10_witness :
    (log_transaction emptyState "a" reqEmpty 0).transaction_history "b" =
      emptyState.transaction_history "b" ∧
    (log_voice_command emptyState "a" "hi" 0).voice_command_history "b" =
      emptyState.voice_command_history "b" ∧
    emptyState = emptyState :=
  ⟨frame_effect_c10.1 emptyState "a" reqEmpty 0 "b" (by decide),
   frame_effect_c10.2.2.1 emptyState "a" "hi" 0 "b" (by decide),
   frame_effect_c10.2.2.2.2 emptyState reqEmpty clock10 c10Verdict emptyState rfl⟩

lemma runOps_append (ops : List Op) (op : Op) :
    runOps (ops ++ [op]) = applyOp (runOps ops) op := by
  unfold runOps
  rw [List.foldl_append]
  rfl

lemma fullTx_append (u : String) (ops1 ops2 : List Op) :
    fullTx u (ops1 ++ ops2) = fullTx u ops1 ++ fullTx u ops2 := by
  unfold fullTx
  rw [List.filterMap_append]

lemma fullVoice_append (u : String) (ops1 ops2 : List Op) :
    fullVoice u (ops1 ++ ops2) = fullVoice u ops1 ++ fullVoice u ops2 := by
  unfold fullVoice
  rw [List.filterMap_append]

lemma runOps_tx (ops : List Op) (u : String) :
    (runOps ops).transaction_history u = lastN 100 (fullTx u ops) := by
  induction ops using List.reverseRecOn with
  | nil => rfl
  | append_singleton ops op ih =>
    rw [runOps_append, fullTx_append]
    cases op with
    | tx u2 d t =>
      show (log_transaction (runOps ops) u2 d t).transaction_history u = _
      by_cases h : u = u2
      · subst h
        rw [log_transaction_self, ih, lastN_append_lastN]
        simp [fullTx]
      · rw [log_transaction_other _ _ _ _ _ h, ih]
        have h2 : ¬(u2 = u) := fun hc => h hc.symm
        simp [fullTx, h2]
    | voice u2 cmd t =>
      show (log_voice_command (runOps ops) u2 cmd t).transaction_history u = _
      rw [log_voice_command_tx, ih]
      simp [fullTx]

lemma runOps_voice (ops : List Op) (u : String) :
    (runOps ops).voice_command_history u = lastN 50 (fullVoice u ops) := by
  induction ops using List.reverseRecOn with
  | nil => rfl
  | append_singleton ops op ih =>
    rw [runOps_append, fullVoice_append]
    cases op with
    | voice u2 cmd t =>
      show (log_voice_command (runOps ops) u2 cmd t).voice_command_history u = _
      by_cases h : u = u2
      · subst h
        rw [log_voice_command_self, ih, lastN_append_lastN]
        simp [fullVoice]
      · rw [log_voice_command_other _ _ _ _ _ h, ih]
        have h2 : ¬(u2 = u) := fun hc => h hc.symm
        simp [fullVoice, h2]
    | tx u2 d t =>
      show (log_transaction (runOps ops) u2 d t).voice_command_history u = _
      rw [log_transaction_voice, ih]
      simp [fullVoice]

lemma fullTx_times_sublist (u : String) (ops : List Op) :
    ((fullTx u ops).map TxRec.t).Sublist (ops.map Op.time) := by
  induction ops with
  | nil => simp [fullTx]
  | cons op ops ih =>
    cases op with
    | tx u2 d t =>
      by_cases h : u2 = u
      · simp only [fullTx, List.filterMap_cons, h, if_pos rfl, List.map_cons, Op.time]
        exact ih.cons₂ _
      · simp only [fullTx, List.filterMap_cons, if_neg h, List.map_cons, Op.time]
        exact ih.cons _
    | voice u2 cmd t =>
      simp only [fullTx, List.filterMap_cons, List.map_cons, Op.time]
      exact ih.cons _

lemma fullVoice_times_sublist (u : String) (ops : List Op) :
    ((fullVoice u ops).map VoiceRec.t).Sublist (ops.map Op.time) := by
  induction ops with
  | nil => simp [fullVoice]
  | cons op ops ih =>
    cases op with
    | voice u2 cmd t =>
      by_cases h : u2 = u
      · simp only [fullVoice, List.filterMap_cons, h, if_pos rfl, List.map_cons, Op.time]
        exact ih.cons₂ _
      · simp only [fullVoice, List.filterMap_cons, if_neg h, List.map_cons, Op.time]
        exact ih.cons _
    | tx u2 d t =>
      simp only [fullVoice, List.filterMap_cons, List.map_cons, Op.time]
      exact ih.cons _

/-- C6: any ledger state reachable by a stamped sequence of
`log_transaction` / `log_voice_command` calls (stamps non-decreasing, as
`now()` is) keeps, per identity, exactly the most recent 100 transaction
records and 50 voice records of everything ever appended — oldest
evicted from the front — so the bounds are never exceeded and both
sequences are in non-decreasing timestamp order. Appending 150
transactions leaves exactly the last 100, as the instance of the first
equation at a 150-element `fullTx`. -/
theorem ledger_bound_c6 (ops : List Op) (u : String)
    (hmono : (ops.map Op.time).Pairwise (· ≤ ·)) :
    (runOps ops).transaction_history u = lastN 100 (fullTx u ops) ∧
    (runOps ops).voice_command_history u = lastN 50 (fullVoice u ops) ∧
    ((runOps ops).transaction_history u).length ≤ 100 ∧
    ((runOps ops).voice_command_history u).length ≤ 50 ∧
    (((runOps ops).transaction_history u).map TxRec.t).Pairwise (· ≤ ·) ∧
    (((runOps ops).voice_command_history u).map VoiceRec.t).Pairwise (· ≤ ·) := by
  refine ⟨runOps_tx ops u, runOps_voice ops u, ?_, ?_, ?_, ?_⟩
  · rw [runOps_tx]
    exact lastN_length_le _ _
  · rw [runOps_voice]
    exact lastN_length_le _ _
  · rw [runOps_tx]
    exact List.Pairwise.sublist
      (List.Sublist.trans ((lastN_sublist _ _).map TxRec.t) (fullTx_times_sublist u ops))
      hmono
  · rw [runOps_voice]
    exact List.Pairwise.sublist
      (List.Sublist.trans ((lastN_sublist _ _).map VoiceRec.t) (fullVoice_times_sublist u ops))
      hmono

theorem ledger_bound_c6_witness :
    ((c6Ops.map Op.time).Pairwise (· ≤ ·)) ∧
    (runOps c6Ops).transaction_history "u" = lastN 100 (fullTx "u" c6Ops) ∧
    ((runOps c6Ops).transaction_history "u").length ≤ 100 :=
  ⟨by decide, (ledger_bound_c6 c6Ops "u" (by decide)).1,
    (ledger_bound_c6 c6Ops "u" (by decide)).2.2.1⟩

lemma trySendPatterns_intent (ps : List (String × List Tok)) (cs : List Char) (i : Intent)
    (h : trySendPatterns ps cs = some i) : i.intent = "send_money" := by
  induction ps with
  | nil => exact absurd h (by simp [trySendPatterns])
  | cons p ps ih =>
    obtain ⟨stext, toks⟩ := p
    unfold trySendPatterns at h
    cases hrs : reSearch (searchFuel cs) toks cs with
    | none => rw [hrs] at h; exact ih h
    | some g =>
      rw [hrs] at h
      simp only [Option.some.injEq] at h
      rw [← h]
      unfold mkSendIntent
      split <;> rfl

/-- C7 (counterexample): `extract_voice_intent` is case-sensitive, not
case-insensitive — the upper-cased command falls through every pattern
group to the unknown intent, while its lower-cased form (which the HTTP
route produces before calling the extractor) hits the balance group. -/
theorem intent_extractor_c7_counterexample :
    (extract_voice_intent "WHAT IS MY BALANCE").intent = "unknown" ∧
    (extract_voice_intent "what is my balance").intent = "check_balance" :=
  ⟨by decide, by decide⟩

/-- C7 (amended): the extractor evaluates its pattern groups strictly in
the order send-money, receive-money, balance, history, help, returning
on the first group that matches; matching is case-SENSITIVE
substring/regex search (the HTTP route lower-cases the command before
calling the extractor, which is what makes the end-to-end behaviour
case-insensitive). The four quoted examples behave as the claim lists
them. -/
theorem intent_extractor_c7_amended :
    (∀ cmd : String, (trySendPatterns send_patterns cmd.toList).isSome = true →
      (extract_voice_intent cmd).intent = "send_money") ∧
    (∀ cmd : String, trySendPatterns send_patterns cmd.toList = none →
      anyPatMatch receive_patterns cmd.toList = true →
      extract_voice_intent cmd = { intent := "receive_money", confidence := 4 / 5 }) ∧
    (∀ cmd : String, trySendPatterns send_patterns cmd.toList = none →
      anyPatMatch receive_patterns cmd.toList = false →
      anyPatMatch balance_patterns cmd.toList = true →
      extract_voice_intent cmd = { intent := "check_balance", confidence := 4 / 5 }) ∧
    (∀ cmd : String, trySendPatterns send_patterns cmd.toList = none →
      anyPatMatch receive_patterns cmd.toList = false →
      anyPatMatch balance_patterns cmd.toList = false →
      anyPatMatch history_patterns cmd.toList = true →
      extract_voice_intent cmd = { intent := "view_history", confidence := 4 / 5 }) ∧
    (∀ cmd : String, trySendPatterns send_patterns cmd.toList = none →
      anyPatMatch receive_patterns cmd.toList = false →
      anyPatMatch balance_patterns cmd.toList = false →
      anyPatMatch history_patterns cmd.toList = false →
      anyPatMatch help_patterns cmd.toList = true →
      extract_voice_intent cmd = { intent := "help", confidence := 4 / 5 }) ∧
    (∀ cmd : String, trySendPatterns send_patterns cmd.toList = none →
      anyPatMatch receive_patterns cmd.toList = false →
      anyPatMatch balance_patterns cmd.toList = false →
      anyPatMatch history_patterns cmd.toList = false →
      anyPatMatch help_patterns cmd.toList = false →
      extract_voice_intent cmd =
        { intent := "unknown", confidence := 1 / 10, original_command := some cmd }) ∧
    (extract_voice_intent "send 500 to Ravi" =
      { intent := "send_money", confidence := 9 / 10, amount := some 500,
        recipient := some "Ravi" }) ∧
    (extract_voice_intent "Ravi ko 500 bhej" =
      { intent := "send_money", confidence := 9 / 10, amount := some 500,
        recipient := some "Ravi" }) ∧
    (extract_voice_intent "what is my balance" =
      { intent := "check_balance", confidence := 4 / 5 }) ∧
    (extract_voice_intent "xyz random text" =
      { intent := "unknown", confidence := 1 / 10,
        original_command := some "xyz random text" }) := by
  refine ⟨?_, ?_, ?_, ?_, ?_, ?_, by rfl, by rfl, by rfl, by rfl⟩
  · intro cmd h
    cases hs : trySendPatterns send_patterns cmd.toList with
    | none => rw [hs] at h; exact absurd h (by simp)
    | some i =>
      have hext : extract_voice_intent cmd = i := by
        simp only [extract_voice_intent]
        rw [hs]
      rw [hext]
      exact trySendPatterns_intent _ _ _ hs
  · intro cmd h0 h1
    simp only [extract_voice_intent]
    rw [h0, h1]
    rfl
  · intro cmd h0 h1 h2
    simp only [extract_voice_intent]
    rw [h0, h1, h2]
    rfl
  · intro cmd h0 h1 h2 h3
    simp only [extract_voice_intent]
    rw [h0, h1, h2, h3]
    rfl
  · intro cmd h0 h1 h2 h3 h4
    simp only [extract_voice_intent]
    rw [h0, h1, h2, h3, h4]
    rfl
  · intro cmd h0 h1 h2 h3 h4
    simp only [extract_voice_intent]
    rw [h0, h1, h2, h3, h4]
    rfl

theorem intent_extractor_c7_witness :
    (trySendPatterns send_patterns ("send 500 to Ravi").toList).isSome = true ∧
    (extract_voice_intent "send 500 to Ravi").intent = "send_money" :=
  ⟨by decide, intent_extractor_c7_amended.1 "send 500 to Ravi" (by decide)⟩
